import Mathlib

/-!
# Registry provisioning and credential reconciliation

A shallow embedding of `pkg/devspace/registry/registry.go`.

* Go `string` and `[]byte` values are Lean `String`s; the conversions
  `[]byte(s)` and `string(b)` are the identity, and `len(x) == 0` is emptiness.
* A Go `error` is the text of `err.Error()`; a nil error is `none`.
* A Go pointer that the code dereferences is an `Option`; dereferencing `none`
  is the outcome `Outcome.panic`.
* The cluster client and the chart installer are external: they are records of
  transition functions over an arbitrary cluster state `σ`.  Every call the code
  makes is also appended to a trace of events.
* The two polling loops take a fuel argument that bounds the number of
  iterations; `Outcome.unfinished` is the outcome of a loop that is still
  running when the fuel is used up.
-/

namespace Registry

/-- A Go `error`, identified with its message. -/
abbrev Err := String

/-! ## Go maps with string keys -/

/-- The read `m[k]` of a Go `map[string]V` kept as an association list. -/
def mapIndex {V : Type} : List (String × V) → String → Option V
  | [], _ => none
  | (k', v) :: rest, k => if k' = k then some v else mapIndex rest k

/-- The assignment `m[k] = v` of a Go `map[string]V`: the entry of `k` is
replaced where it stands, or added when `k` has none. -/
def mapAssign {V : Type} : List (String × V) → String → V → List (String × V)
  | [], k, v => [(k, v)]
  | (k', v') :: rest, k, v =>
    if k' = k then (k, v) :: rest else (k', v') :: mapAssign rest k v

/-! ## Configuration types (`config/v1`) -/

/-- The `Auth` part of a registry configuration. -/
structure RegistryAuth where
  Username : Option String
  Password : Option String
deriving DecidableEq, Repr

/-- A registry configuration `{URL, Insecure, Auth}`; every field is a pointer. -/
structure RegistryConfig where
  URL : Option String
  Insecure : Option Bool
  Auth : Option RegistryAuth
deriving DecidableEq, Repr

/-- A value-override document `map[interface{}]interface{}`, seen through the
two queries of the external `yamlq` library that the code runs on it: each
returns the value found at a path together with an error. -/
structure Values where
  QueryBool : List String → Bool × Option Err
  QueryString : List String → String × Option Err

/-- A chart release: name, namespace and optional value overrides. -/
structure Release where
  Name : Option String
  Namespace : Option String
  Values : Option Values

/-- The internal registry section of the configuration. -/
structure InternalRegistry where
  Release : Release

/-- An image configuration; `Registry` is a key into the configured registries. -/
structure ImageConfig where
  Name : Option String
  Tag : Option String
  Registry : Option String
deriving DecidableEq, Repr

/-- The process-wide configuration returned by `configutil.GetConfig`, passed
explicitly: the map of configured registries (a pointer to a map of pointers). -/
structure Config where
  Registries : Option (List (String × Option RegistryConfig))
deriving DecidableEq, Repr

/-! ## Cluster resources -/

/-- A `k8sv1.Secret`: name, type and data (a map that can be nil). -/
structure Secret where
  Name : String
  Data : Option (List (String × String))
  SecretType : String
deriving DecidableEq, Repr

/-- The status of a deployment that the code reads. -/
structure DeploymentStatus where
  Replicas : Int
  ReadyReplicas : Int
deriving DecidableEq, Repr

/-- A deployment, reduced to its status. -/
structure Deployment where
  Status : DeploymentStatus
deriving DecidableEq, Repr

/-- A service, reduced to the cluster address of its spec. -/
structure Service where
  ClusterIP : String
deriving DecidableEq, Repr

/-- The calls of `kubernetes.Clientset` that the code makes, over a cluster
state `σ`.  A `Get` gives the resource or an error (not-found is an error). -/
structure Clientset (σ : Type) where
  DeploymentsGet : String → String → σ → Except Err Deployment × σ
  NamespacesGet : String → σ → Option Err × σ
  NamespacesCreate : String → σ → Option Err × σ
  SecretsGet : String → String → σ → Except Err Secret × σ
  SecretsCreate : String → Secret → σ → Option Err × σ
  SecretsUpdate : String → Secret → σ → Option Err × σ
  ServicesGet : String → String → σ → Except Err Service × σ

/-- The chart installer `helm.HelmClientWrapper`: release name, namespace,
chart name, chart version and value overrides. -/
structure HelmClientWrapper (σ : Type) where
  InstallChartByName : String → String → String → String → Option Values → σ → Option Err × σ

/-- The calls made on the outside world, with their arguments. -/
inductive Event where
  | DeploymentsGet (ns name : String)
  | NamespacesGet (name : String)
  | NamespacesCreate (name : String)
  | InstallChartByName (releaseName ns chartName chartVersion : String)
  | SecretsGet (ns name : String)
  | SecretsCreate (ns : String) (secret : Secret)
  | SecretsUpdate (ns : String) (secret : Secret)
  | ServicesGet (ns name : String)
  | Sleep (d : Int)
  | StartWait (message : String)
  | StopWait
deriving DecidableEq, Repr

/-- The cluster state together with the calls made so far, oldest first. -/
structure World (σ : Type) where
  state : σ
  trace : List Event

/-- How a run of a function ends. -/
inductive Outcome where
  | success
  | failure (err : Err)
  | panic
  | unfinished
deriving DecidableEq, Repr

variable {σ : Type}

/-- Make a call on the world and record it. -/
def call {α : Type} (ev : Event) (f : σ → α × σ) (w : World σ) : α × World σ :=
  ((f w.state).1, { state := (f w.state).2, trace := w.trace ++ [ev] })

/-- Record an event that leaves the cluster as it is. -/
def emit (ev : Event) (w : World σ) : World σ :=
  { state := w.state, trace := w.trace ++ [ev] }

/-! ## Secret names -/

def registryAuthSecretNamePrefix : String := "devspace-registry-auth-"

def registryPort : Int := 5000

/-- The table `hextable` of the Go standard library package `encoding/hex`. -/
def hextable : List Char :=
  ['0', '1', '2', '3', '4', '5', '6', '7', '8', '9', 'a', 'b', 'c', 'd', 'e', 'f']

/-- The character `hextable[i]`. -/
def hexDigit (i : Nat) : Char := hextable.getD i '0'

/-- The loop of `hex.Encode`: two digits a byte, `hextable[v>>4]` and `hextable[v&0x0f]`. -/
def hexEncode : List (Fin 256) → List Char
  | [] => []
  | v :: rest => hexDigit (v.val >>> 4) :: hexDigit (v.val &&& 0x0f) :: hexEncode rest

/-- The function `hex.EncodeToString` of the Go standard library: lower-case
hexadecimal, two digits a byte. -/
def EncodeToString (src : List (Fin 256)) : String := String.mk (hexEncode src)

/-- The function `GetRegistryAuthSecretName` returns the name of the image pull secret for a
registry.  `md5Sum` is `md5.Sum` of the standard library, on `[]byte(registryURL)`. -/
def GetRegistryAuthSecretName (md5Sum : String → List (Fin 256)) (registryURL : String) : String :=
  let registryHash := md5Sum registryURL
  registryAuthSecretNamePrefix ++ EncodeToString registryHash

/-! ## Pull secrets -/

/-- The constant `k8sv1.DockerConfigJsonKey`. -/
def DockerConfigJsonKey : String := ".dockerconfigjson"

/-- The constant `k8sv1.SecretTypeDockerConfigJson`. -/
def SecretTypeDockerConfigJson : String := "kubernetes.io/dockerconfigjson"

/-- Lines 31–61 of `CreatePullSecret`: the secret that is written, with the
docker config document of one registry under the key `.dockerconfigjson`.
`base64` is `base64.StdEncoding.EncodeToString`. -/
def registryPullSecret (md5Sum : String → List (Fin 256)) (base64 : String → String)
    (registryURL username passwordOrToken email : String) : Secret :=
  let pullSecretName := GetRegistryAuthSecretName md5Sum registryURL
  let registryURL :=
    if registryURL = "hub.docker.com" ∨ registryURL = "" then "https://index.docker.io/v1/"
    else registryURL
  let authToken := passwordOrToken
  let authToken := if username ≠ "" then username ++ ":" ++ authToken else authToken
  let registryAuthEncoded := base64 authToken
  let pullSecretDataValue :=
    "\x7b\n\t\t\t\"auths\": \x7b\n\t\t\t\t\"" ++ registryURL ++
    "\": \x7b\n\t\t\t\t\t\"auth\": \"" ++ registryAuthEncoded ++
    "\",\n\t\t\t\t\t\"email\": \"" ++ email ++
    "\"\n\t\t\t\t\x7d\n\t\t\t\x7d\n\t\t\x7d"
  let pullSecretData : List (String × String) := []
  let pullSecretDataKey := DockerConfigJsonKey
  let pullSecretData := mapAssign pullSecretData pullSecretDataKey pullSecretDataValue
  { Name := pullSecretName, Data := some pullSecretData, SecretType := SecretTypeDockerConfigJson }

/-- The function `CreatePullSecret` creates an image pull secret for a
registry: it reads the secret by name, creates it when the read gives an
error and updates it otherwise (lines 62–73). -/
def CreatePullSecret (md5Sum : String → List (Fin 256)) (base64 : String → String)
    (kubectl : Clientset σ) (ns registryURL username passwordOrToken email : String)
    (w : World σ) : Option Err × World σ :=
  let pullSecretName := GetRegistryAuthSecretName md5Sum registryURL
  let registryPullSecret :=
    registryPullSecret md5Sum base64 registryURL username passwordOrToken email
  let got := call (Event.SecretsGet ns pullSecretName) (kubectl.SecretsGet ns pullSecretName) w
  let written :=
    match got.1 with
    | Except.error _ =>
      call (Event.SecretsCreate ns registryPullSecret) (kubectl.SecretsCreate ns registryPullSecret) got.2
    | Except.ok _ =>
      call (Event.SecretsUpdate ns registryPullSecret) (kubectl.SecretsUpdate ns registryPullSecret) got.2
  match written.1 with
  | some err => (some ("Unable to update image pull secret: " ++ err), written.2)
  | none => (none, written.2)

/-! ## Image references -/

/-- The function `GetRegistryConfig` returns the registry config for an image or an error if
the registry is not defined.  The result is a pointer, which the map may hold
as nil. -/
def GetRegistryConfig (config : Config) (imageConfig : ImageConfig) :
    Option (Except Err (Option RegistryConfig)) :=
  match imageConfig.Registry, config.Registries with
  | some registryName, some registryMap =>
    match mapIndex registryMap registryName with
    | none => some (Except.error ("Unable to find registry: " ++ registryName))
    | some registryConfig => some (Except.ok registryConfig)
  | _, _ => none

/-- The result of `GetImageURL`: the image, or the reason no string is returned. -/
inductive ImageURL where
  | image (s : String)
  | fatal (err : Err)
  | panic
deriving DecidableEq, Repr

/-- The function `GetImageURL` returns the image (optional with tag).  `log.Fatal` ends the
process, and a nil pointer that is dereferenced panics. -/
def GetImageURL (config : Config) (imageConfig : ImageConfig) (includingLatestTag : Bool) :
    ImageURL :=
  match GetRegistryConfig config imageConfig with
  | none => ImageURL.panic
  | some (Except.error registryConfErr) => ImageURL.fatal registryConfErr
  | some (Except.ok registryConfig) =>
    match imageConfig.Name, registryConfig.bind (fun c => c.URL) with
    | some name, some registryURL =>
      let image := name
      let image :=
        if registryURL ≠ "" ∧ registryURL ≠ "hub.docker.com" then registryURL ++ "/" ++ image
        else image
      if includingLatestTag then
        match imageConfig.Tag with
        | some tag => ImageURL.image (image ++ ":" ++ tag)
        | none => ImageURL.panic
      else ImageURL.image image
    | _, _ => ImageURL.panic

/-! ## The htpasswd library -/

/-- The type `htpasswd.HashedPasswords`, a map from user name to hash. -/
abbrev HashedPasswords := List (String × String)

/-- The external htpasswd library, as far as the code calls it: the parser
(passwords and error), the hashing of a password under `HashBCrypt` (a hash
or an error) and the serialisation `HashedPasswords.Bytes`. -/
structure Htpasswd where
  ParseHtpasswd : String → HashedPasswords × Option Err
  hashBCrypt : String → Except Err String
  Bytes : HashedPasswords → String

/-- Modelled from the spec: `HashedPasswords.SetPassword` belongs to the
htpasswd library and is not in the source file.  It hashes the password and
sets exactly the given user's entry to the hash; every other entry stays as
it is.  A password that cannot be hashed is an error and changes nothing. -/
def SetPassword (lib : Htpasswd) (hp : HashedPasswords) (name password : String) :
    Except Err HashedPasswords :=
  match lib.hashBCrypt password with
  | Except.error err => Except.error err
  | Except.ok hash => Except.ok (mapAssign hp name hash)

/-! ## Waiting for the registry -/

/-- A `time.Duration`, in nanoseconds. -/
abbrev Duration := Int

/-- The constant `time.Second`. -/
def Second : Duration := 1000000000

/-- The loop of `waitForRegistry` (lines 225–236), with the remaining
`registryWaitingTime`.  One unit of fuel is one pass through the loop body. -/
def waitForRegistryLoop (client : Clientset σ) (registryNamespace registryReleaseDeploymentName : String)
    (registryCheckInverval : Duration) : Nat → Duration → World σ → Outcome × World σ
  | fuel, registryWaitingTime, w =>
    if registryWaitingTime > 0 then
      match fuel with
      | 0 => (Outcome.unfinished, w)
      | fuel + 1 =>
        let got := call (Event.DeploymentsGet registryNamespace registryReleaseDeploymentName)
          (client.DeploymentsGet registryNamespace registryReleaseDeploymentName) w
        match got.1 with
        | Except.error _ =>
          waitForRegistryLoop client registryNamespace registryReleaseDeploymentName
            registryCheckInverval fuel registryWaitingTime got.2
        | Except.ok registryDeployment =>
          if registryDeployment.Status.ReadyReplicas = registryDeployment.Status.Replicas then
            (Outcome.success, got.2)
          else
            waitForRegistryLoop client registryNamespace registryReleaseDeploymentName
              registryCheckInverval fuel (registryWaitingTime - registryCheckInverval)
              (emit (Event.Sleep registryCheckInverval) got.2)
    else (Outcome.failure "Internal registry start waiting time timed out", w)

/-- The function `waitForRegistry`.  The deferred `log.StopWait` runs when the
function returns. -/
def waitForRegistry (registryNamespace registryReleaseDeploymentName : String)
    (client : Clientset σ) (fuel : Nat) (w : World σ) : Outcome × World σ :=
  let registryWaitingTime := 2 * 60 * Second
  let registryCheckInverval := 5 * Second
  let r := waitForRegistryLoop client registryNamespace registryReleaseDeploymentName
    registryCheckInverval fuel registryWaitingTime
    (emit (Event.StartWait "Waiting for internal registry to start") w)
  match r.1 with
  | Outcome.unfinished => r
  | o => (o, emit Event.StopWait r.2)

/-! ## Provisioning the internal registry -/

/-- The function `strconv.Itoa` of the Go standard library: the decimal text
of an integer. -/
def Itoa (i : Int) : String := toString i

/-- Lines 93–106 of `InitInternalRegistry`: check if the registry namespace
exists and create it when the check gives an error.  The result is the error
of the creation, which line 104 returns. -/
def ensureNamespace (kubectl : Clientset σ) (registryReleaseNamespace : String) (w : World σ) :
    Option Err × World σ :=
  let got := call (Event.NamespacesGet registryReleaseNamespace)
    (kubectl.NamespacesGet registryReleaseNamespace) w
  match got.1 with
  | some _ =>
    call (Event.NamespacesCreate registryReleaseNamespace)
      (kubectl.NamespacesCreate registryReleaseNamespace) got.2
  | none => (none, got.2)

/-- Lines 130–145 of `InitInternalRegistry`: read the old htpasswd data of the
secret, parse it when it is not empty (the error of the parser is dropped), set
the password of the user and store the new bytes under the key `htpasswd`. -/
def mergeHtpasswd (lib : Htpasswd) (htpasswdSecret : Secret) (username password : String) :
    Except Err Secret :=
  let data := htpasswdSecret.Data.getD []
  let oldHtpasswdData := (mapIndex data "htpasswd").getD ""
  let newHtpasswdData : HashedPasswords := []
  let newHtpasswdData :=
    if oldHtpasswdData.length ≠ 0 then (lib.ParseHtpasswd oldHtpasswdData).1 else newHtpasswdData
  match SetPassword lib newHtpasswdData username password with
  | Except.error err => Except.error ("Unable to set password in htpasswd: " ++ err)
  | Except.ok newHtpasswdData =>
    let newHtpasswdDataBytes := lib.Bytes newHtpasswdData
    Except.ok { htpasswdSecret with Data := some (mapAssign data "htpasswd" newHtpasswdDataBytes) }

/-- Lines 114–152 of `InitInternalRegistry`, the body of the branch taken when
auth is configured.  The result is `some` outcome when the function returns
from inside the branch, and `none` when control leaves the branch at line 153.
The `err` that receives the result of `Create` and `Update` is the one declared
on line 116; its scope ends on line 153, so the result is not passed on. -/
def updateHtpasswdSecret (kubectl : Clientset σ) (lib : Htpasswd)
    (registryReleaseName registryReleaseNamespace : String) (registryAuth : RegistryAuth)
    (w : World σ) : Option Outcome × World σ :=
  let htpasswdSecretName := registryReleaseName ++ "-docker-registry-secret"
  let got := call (Event.SecretsGet registryReleaseNamespace htpasswdSecretName)
    (kubectl.SecretsGet registryReleaseNamespace htpasswdSecretName) w
  match got.1 with
  | Except.error err =>
    (some (Outcome.failure ("Unable to retrieve secret for docker registry: " ++ err)), got.2)
  | Except.ok htpasswdSecret =>
    let htpasswdSecret : Secret :=
      if htpasswdSecret.Data = none then
        { Name := htpasswdSecretName, Data := some [], SecretType := "" }
      else htpasswdSecret
    match registryAuth.Username, registryAuth.Password with
    | some username, some password =>
      match mergeHtpasswd lib htpasswdSecret username password with
      | Except.error err => (some (Outcome.failure err), got.2)
      | Except.ok htpasswdSecret =>
        let again := call (Event.SecretsGet registryReleaseNamespace htpasswdSecretName)
          (kubectl.SecretsGet registryReleaseNamespace htpasswdSecretName) got.2
        let written :=
          match again.1 with
          | Except.error _ =>
            call (Event.SecretsCreate registryReleaseNamespace htpasswdSecret)
              (kubectl.SecretsCreate registryReleaseNamespace htpasswdSecret) again.2
          | Except.ok _ =>
            call (Event.SecretsUpdate registryReleaseNamespace htpasswdSecret)
              (kubectl.SecretsUpdate registryReleaseNamespace htpasswdSecret) again.2
        (none, written.2)
    | _, _ => (some Outcome.panic, got.2)

/-- Lines 164–181 of `InitInternalRegistry`: poll the registry service until it
has a cluster address.  The result is the `serviceHostname` on `break`, or the
outcome with which the function returns.  One unit of fuel is one pass. -/
def waitForServiceLoop (kubectl : Clientset σ) (registryReleaseNamespace registryServiceName : String)
    (serviceWaitingInterval : Duration) : Nat → Duration → World σ → Except Outcome String × World σ
  | 0, _, w => (Except.error Outcome.unfinished, w)
  | fuel + 1, maxServiceWaiting, w =>
    let got := call (Event.ServicesGet registryReleaseNamespace registryServiceName)
      (kubectl.ServicesGet registryReleaseNamespace registryServiceName) w
    match got.1 with
    | Except.error err => (Except.error (Outcome.failure err), got.2)
    | Except.ok registryService =>
      if registryService.ClusterIP.length > 0 then
        (Except.ok (registryService.ClusterIP ++ ":" ++ Itoa registryPort), got.2)
      else
        let slept := emit (Event.Sleep serviceWaitingInterval) got.2
        let maxServiceWaiting := maxServiceWaiting - serviceWaitingInterval
        if maxServiceWaiting ≤ 0 then
          (Except.error (Outcome.failure "Timeout waiting for registry service to start"), slept)
        else
          waitForServiceLoop kubectl registryReleaseNamespace registryServiceName
            serviceWaitingInterval fuel maxServiceWaiting slept

/-- Lines 183–195 of `InitInternalRegistry`: the first ingress host of the
value overrides when ingress is enabled, the empty string otherwise.  The
errors of both queries are dropped. -/
def ingressHostnameOf (registryReleaseValues : Option Values) : String :=
  match registryReleaseValues with
  | some registryValues =>
    let isIngressEnabled := (registryValues.QueryBool ["ingress", "enabled"]).1
    if isIngressEnabled then
      let firstIngressHostname := (registryValues.QueryString ["ingress", "hosts", "0"]).1
      if firstIngressHostname.length > 0 then firstIngressHostname else ""
    else ""
  | none => ""

/-- Lines 197–203 of `InitInternalRegistry`: write URL and Insecure into the
registry config. -/
def setEndpoint (registryConfig : RegistryConfig) (serviceHostname ingressHostname : String) :
    RegistryConfig :=
  if ingressHostname.length = 0 then
    { registryConfig with URL := some serviceHostname, Insecure := some true }
  else
    { registryConfig with URL := some ingressHostname, Insecure := some false }

/-- Lines 93–157 of `InitInternalRegistry`: namespace, chart and htpasswd
secret.  The result is `some` outcome when the function returns from inside
these lines.  The `err` tested on line 155 is the one declared on line 94,
which last received the result of the chart installer. -/
def prepareRegistry (kubectl : Clientset σ) (helm : HelmClientWrapper σ) (lib : Htpasswd)
    (registryReleaseName registryReleaseNamespace : String) (registryReleaseValues : Option Values)
    (registryConfig : Option RegistryConfig) (w : World σ) : Option Outcome × World σ :=
  let created := ensureNamespace kubectl registryReleaseNamespace w
  match created.1 with
  | some err => (some (Outcome.failure err), created.2)
  | none =>
    let installed :=
      call (Event.InstallChartByName registryReleaseName registryReleaseNamespace "stable/docker-registry" "")
        (helm.InstallChartByName registryReleaseName registryReleaseNamespace "stable/docker-registry" ""
          registryReleaseValues) created.2
    let err := installed.1
    match err with
    | some e => (some (Outcome.failure ("Unable to initialize docker registry: " ++ e)), installed.2)
    | none =>
      let auth :=
        match registryConfig.bind (fun c => c.Auth) with
        | some registryAuth =>
          updateHtpasswdSecret kubectl lib registryReleaseName registryReleaseNamespace registryAuth
            installed.2
        | none => (none, installed.2)
      match auth.1 with
      | some outcome => (some outcome, auth.2)
      | none =>
        match err with
        | some e => (some (Outcome.failure ("Unable to update htpasswd secret: " ++ e)), auth.2)
        | none => (none, auth.2)

/-- Lines 159–203 of `InitInternalRegistry`: wait for the address of the
registry service, then write the endpoint into the registry config, which is
dereferenced on lines 198 and 201. -/
def resolveEndpoint (kubectl : Clientset σ)
    (registryReleaseName registryReleaseNamespace : String) (registryReleaseValues : Option Values)
    (registryConfig : Option RegistryConfig) (fuel : Nat) (w : World σ) :
    Option Outcome × Option RegistryConfig × World σ :=
  let registryServiceName := registryReleaseName ++ "-docker-registry"
  let maxServiceWaiting := 60 * Second
  let serviceWaitingInterval := 3 * Second
  let service := waitForServiceLoop kubectl registryReleaseNamespace registryServiceName
    serviceWaitingInterval fuel maxServiceWaiting w
  match service.1 with
  | Except.error outcome => (some outcome, registryConfig, service.2)
  | Except.ok serviceHostname =>
    let ingressHostname := ingressHostnameOf registryReleaseValues
    match registryConfig with
    | none => (some Outcome.panic, registryConfig, service.2)
    | some c => (none, some (setEndpoint c serviceHostname ingressHostname), service.2)

/-- Lines 93–204 of `InitInternalRegistry`, the branch taken when the probe of
the deployment gives an error. -/
def provisionRegistry (kubectl : Clientset σ) (helm : HelmClientWrapper σ) (lib : Htpasswd)
    (registryReleaseName registryReleaseNamespace : String) (registryReleaseValues : Option Values)
    (registryConfig : Option RegistryConfig) (fuel : Nat) (w : World σ) :
    Option Outcome × Option RegistryConfig × World σ :=
  let prepared := prepareRegistry kubectl helm lib registryReleaseName registryReleaseNamespace
    registryReleaseValues registryConfig w
  match prepared.1 with
  | some outcome => (some outcome, registryConfig, prepared.2)
  | none =>
    resolveEndpoint kubectl registryReleaseName registryReleaseNamespace registryReleaseValues
      registryConfig fuel prepared.2

/-- The result of a run of `InitInternalRegistry`: how it ends, the registry
config behind the pointer it was given, and the world. -/
structure InitResult (σ : Type) where
  outcome : Outcome
  registryConfig : Option RegistryConfig
  world : World σ

/-- The function `InitInternalRegistry` deploys and starts a new docker
registry if necessary.  When the probe gives an error the deployment read on
line 207 is nil or zero-valued, so the wait is entered. -/
def InitInternalRegistry (lib : Htpasswd) (kubectl : Clientset σ) (helm : HelmClientWrapper σ)
    (internalRegistry : InternalRegistry) (registryConfig : Option RegistryConfig)
    (fuel : Nat) (w : World σ) : InitResult σ :=
  match internalRegistry.Release.Name, internalRegistry.Release.Namespace with
  | some registryReleaseName, some registryReleaseNamespace =>
    let registryReleaseDeploymentName := registryReleaseName ++ "-docker-registry"
    let registryReleaseValues := internalRegistry.Release.Values
    let probe := call (Event.DeploymentsGet registryReleaseNamespace registryReleaseDeploymentName)
      (kubectl.DeploymentsGet registryReleaseNamespace registryReleaseDeploymentName) w
    match probe.1 with
    | Except.error _ =>
      let p := provisionRegistry kubectl helm lib registryReleaseName registryReleaseNamespace
        registryReleaseValues registryConfig fuel probe.2
      match p.1 with
      | some outcome => { outcome := outcome, registryConfig := p.2.1, world := p.2.2 }
      | none =>
        let r := waitForRegistry registryReleaseNamespace registryReleaseDeploymentName kubectl fuel p.2.2
        { outcome := r.1, registryConfig := p.2.1, world := r.2 }
    | Except.ok registryDeployment =>
      if registryDeployment.Status.Replicas = 0 ∨
          registryDeployment.Status.ReadyReplicas ≠ registryDeployment.Status.Replicas then
        let r := waitForRegistry registryReleaseNamespace registryReleaseDeploymentName kubectl fuel probe.2
        { outcome := r.1, registryConfig := registryConfig, world := r.2 }
      else { outcome := Outcome.success, registryConfig := registryConfig, world := probe.2 }
  | _, _ => { outcome := Outcome.panic, registryConfig := registryConfig, world := w }

/-! ## An abstract secret store -/

/-- The secrets of a cluster, by namespace and name. -/
abbrev Store := String → String → Option Secret

/-- The store with the secret put under its name in the namespace. -/
def Store.put (s : Store) (ns : String) (secret : Secret) : Store :=
  fun ns' name' => if ns' = ns ∧ name' = secret.Name then some secret else s ns' name'

/-- Reading a secret of the store: not-found is an error. -/
def Store.Get (ns name : String) (s : Store) : Except Err Secret × Store :=
  match s ns name with
  | some secret => (Except.ok secret, s)
  | none => (Except.error ("secrets \"" ++ name ++ "\" not found"), s)

/-- Creating a secret succeeds on an absent name. -/
def Store.Create (ns : String) (secret : Secret) (s : Store) : Option Err × Store :=
  match s ns secret.Name with
  | none => (none, s.put ns secret)
  | some _ => (some ("secrets \"" ++ secret.Name ++ "\" already exists"), s)

/-- Updating a secret succeeds on a present name and replaces the secret. -/
def Store.Update (ns : String) (secret : Secret) (s : Store) : Option Err × Store :=
  match s ns secret.Name with
  | some _ => (none, s.put ns secret)
  | none => (some ("secrets \"" ++ secret.Name ++ "\" not found"), s)

/-- A client on the abstract secret store; it holds no other resource. -/
def storeClientset : Clientset Store where
  DeploymentsGet := fun _ _ s => (Except.error "not found", s)
  NamespacesGet := fun _ s => (none, s)
  NamespacesCreate := fun _ s => (none, s)
  SecretsGet := Store.Get
  SecretsCreate := Store.Create
  SecretsUpdate := Store.Update
  ServicesGet := fun _ _ s => (Except.error "not found", s)

/-! ## Concrete inputs -/

/-- What a small test cluster answers: the deployment read once the chart is
installed, the secret read, the secret writes, and the address of the service. -/
structure Fixture where
  deployment : Except Err Deployment
  secretRead : Except Err Secret
  secretWrite : Option Err
  clusterIP : String

/-- The client of the test cluster; its state tells whether the chart is installed. -/
def fixtureClientset (f : Fixture) : Clientset Bool where
  DeploymentsGet := fun _ _ installed =>
    (if installed then f.deployment else Except.error "deployments.extensions not found", installed)
  NamespacesGet := fun _ s => (none, s)
  NamespacesCreate := fun _ s => (none, s)
  SecretsGet := fun _ _ s => (f.secretRead, s)
  SecretsCreate := fun _ _ s => (f.secretWrite, s)
  SecretsUpdate := fun _ _ s => (f.secretWrite, s)
  ServicesGet := fun _ _ s => (Except.ok { ClusterIP := f.clusterIP }, s)

/-- The chart installer of the test cluster: it installs the chart. -/
def fixtureHelm : HelmClientWrapper Bool where
  InstallChartByName := fun _ _ _ _ _ _ => (none, true)

/-- A toy htpasswd library: it knows one stored file, refuses the empty
password, and writes one `name:hash` line an entry. -/
def fixtureHtpasswd : Htpasswd where
  ParseHtpasswd := fun b =>
    if b = "" then ([], none)
    else if b = "bob:$2y$old\n" then ([("bob", "$2y$old")], none)
    else ([], some "invalid line")
  hashBCrypt := fun p =>
    if p = "" then Except.error "passwords must not be empty" else Except.ok ("$2y$" ++ p)
  Bytes := fun hp => String.join (hp.map fun e => e.1 ++ ":" ++ e.2 ++ "\n")

/-- A ready deployment with one replica. -/
def readyDeployment : Deployment := { Status := { Replicas := 1, ReadyReplicas := 1 } }

/-- The htpasswd secret that the chart creates, with one user. -/
def chartSecret : Secret :=
  { Name := "reg-docker-registry-secret",
    Data := some [("haSharedSecret", "s3cr3t"), ("htpasswd", "bob:$2y$old\n")],
    SecretType := "Opaque" }

/-- A healthy test cluster: every call succeeds. -/
def healthy : Fixture :=
  { deployment := Except.ok readyDeployment, secretRead := Except.ok chartSecret,
    secretWrite := none, clusterIP := "10.0.0.7" }

/-- A test cluster whose deployment reads all fail. -/
def unreachable : Fixture :=
  { healthy with deployment := Except.error "connection refused" }

/-- A test cluster whose registry deployment has no replica at all. -/
def scaledToZero : Fixture :=
  { healthy with deployment := Except.ok { Status := { Replicas := 0, ReadyReplicas := 0 } } }

/-- A test cluster that refuses every write of a secret. -/
def readOnlySecrets : Fixture :=
  { healthy with secretWrite := some "secrets is forbidden" }

/-- A test cluster in which the htpasswd secret does not exist. -/
def secretMissing : Fixture :=
  { healthy with secretRead := Except.error "secrets \"reg-docker-registry-secret\" not found" }

/-- A test cluster whose htpasswd secret exists and has no data. -/
def secretWithoutData : Fixture :=
  { healthy with
    secretRead := Except.ok { Name := "reg-docker-registry-secret", Data := none, SecretType := "Opaque" } }

/-- The registry config of the examples, with auth for the user alice. -/
def aliceConfig : RegistryConfig :=
  { URL := none, Insecure := none,
    Auth := some { Username := some "alice", Password := some "pw" } }

/-- The release of the examples, without value overrides. -/
def plainRelease : InternalRegistry :=
  { Release := { Name := some "reg", Namespace := some "devspace", Values := none } }

/-- Value overrides with ingress enabled and the host `registry.example.com`. -/
def ingressValues : Values where
  QueryBool := fun path => if path = ["ingress", "enabled"] then (true, none) else (false, some "not found")
  QueryString := fun path =>
    if path = ["ingress", "hosts", "0"] then ("registry.example.com", none) else ("", some "not found")

/-- The release of the examples with ingress enabled. -/
def ingressRelease : InternalRegistry :=
  { Release := { Name := some "reg", Namespace := some "devspace", Values := some ingressValues } }

/-- The world before the first call: the chart is not installed. -/
def fresh : World Bool := { state := false, trace := [] }

/-- The world of a cluster in which the chart is installed. -/
def provisioned : World Bool := { state := true, trace := [] }

/-! # Theorems -/

/-! ## Maps -/

theorem mapIndex_mapAssign_self {V : Type} (m : List (String × V)) (k : String) (v : V) :
    mapIndex (mapAssign m k v) k = some v := by
  induction m with
  | nil => simp [mapAssign, mapIndex]
  | cons e rest ih =>
    obtain ⟨k', v'⟩ := e
    by_cases h : k' = k
    · simp [mapAssign, mapIndex, h]
    · simp [mapAssign, mapIndex, h, ih]

theorem mapIndex_mapAssign_of_ne {V : Type} (m : List (String × V)) (k k₀ : String) (v : V)
    (hne : k₀ ≠ k) : mapIndex (mapAssign m k v) k₀ = mapIndex m k₀ := by
  induction m with
  | nil =>
    have : ¬ k = k₀ := fun h => hne h.symm
    simp [mapAssign, mapIndex, this]
  | cons e rest ih =>
    obtain ⟨k', v'⟩ := e
    by_cases h : k' = k
    · have h' : ¬ k' = k₀ := fun e => hne (e.symm.trans h)
      have h'' : ¬ k = k₀ := fun e => hne e.symm
      simp [mapAssign, mapIndex, h, h', h'']
    · by_cases h₀ : k' = k₀
      · subst h₀
        simp [mapAssign, mapIndex, hne]
      · simp [mapAssign, mapIndex, h, h₀, ih]

/-! ## Strings -/

theorem string_append_left_cancel (p a b : String) (h : p ++ a = p ++ b) : a = b := by
  have h' : (p ++ a).data = (p ++ b).data := by rw [h]
  simp only [String.data_append] at h'
  exact String.ext (List.append_cancel_left h')

theorem string_length_eq_zero (s : String) : s.length = 0 ↔ s = "" := by
  constructor
  · intro h
    apply String.ext
    have : s.data.length = 0 := h
    exact List.length_eq_zero.mp this
  · intro h
    subst h
    rfl

/-! ## Hex encoding -/

theorem hexDigit_injective (i j : Nat) (hi : i < 16) (hj : j < 16)
    (h : hexDigit i = hexDigit j) : i = j := by
  interval_cases i <;> interval_cases j <;> first | rfl | (exact absurd h (by decide))

theorem hexEncode_injective (a b : List (Fin 256)) (h : hexEncode a = hexEncode b) : a = b := by
  induction a generalizing b with
  | nil =>
    cases b with
    | nil => rfl
    | cons y ys => simp [hexEncode] at h
  | cons x xs ih =>
    cases b with
    | nil => simp [hexEncode] at h
    | cons y ys =>
      simp only [hexEncode, List.cons.injEq] at h
      obtain ⟨h1, h2, h3⟩ := h
      have hx := x.isLt
      have hy := y.isLt
      have e1 : x.val >>> 4 = y.val >>> 4 :=
        hexDigit_injective _ _ (by rw [Nat.shiftRight_eq_div_pow]; omega)
          (by rw [Nat.shiftRight_eq_div_pow]; omega) h1
      have m : ∀ n : Nat, n &&& 0x0f = n % 16 := fun n => Nat.and_pow_two_sub_one_eq_mod n 4
      have e2 : x.val &&& 0x0f = y.val &&& 0x0f :=
        hexDigit_injective _ _ (by rw [m]; omega) (by rw [m]; omega) h2
      rw [Nat.shiftRight_eq_div_pow, Nat.shiftRight_eq_div_pow] at e1
      rw [m, m] at e2
      have : x = y := Fin.ext (by omega)
      rw [this, ih ys h3]

theorem EncodeToString_injective (a b : List (Fin 256)) (h : EncodeToString a = EncodeToString b) :
    a = b := by
  apply hexEncode_injective
  have : (EncodeToString a).data = (EncodeToString b).data := by rw [h]
  exact this

/-- The digest of the empty input, `d41d8cd98f00b204e9800998ecf8427e`, is
written in lower-case hexadecimal, two digits a byte. -/
theorem EncodeToString_md5_empty :
    EncodeToString [0xd4, 0x1d, 0x8c, 0xd9, 0x8f, 0x00, 0xb2, 0x04,
      0xe9, 0x80, 0x09, 0x98, 0xec, 0xf8, 0x42, 0x7e] = "d41d8cd98f00b204e9800998ecf8427e" := by
  decide

/-- Claim C9: `GetRegistryAuthSecretName` is defined on every string, the empty
one included, its value is `devspace-registry-auth-` followed by the
hexadecimal digest of the URL, and two URLs get the same name exactly when
their digests are equal. -/
theorem GetRegistryAuthSecretName_eq_iff (md5Sum : String → List (Fin 256)) :
    (∀ u : String, GetRegistryAuthSecretName md5Sum u =
        "devspace-registry-auth-" ++ EncodeToString (md5Sum u)) ∧
    GetRegistryAuthSecretName md5Sum "" = "devspace-registry-auth-" ++ EncodeToString (md5Sum "") ∧
    (∀ u1 u2 : String, GetRegistryAuthSecretName md5Sum u1 = GetRegistryAuthSecretName md5Sum u2 ↔
        md5Sum u1 = md5Sum u2) := by
  refine ⟨fun u => rfl, rfl, fun u1 u2 => ⟨fun h => ?_, fun h => ?_⟩⟩
  · exact EncodeToString_injective _ _ (string_append_left_cancel _ _ _ h)
  · simp only [GetRegistryAuthSecretName, h]

/-! ## Image references -/

/-- Claim C8: for an image config whose registry reference is configured with
URL `u`, name `n` and tag `t`, `GetImageURL` gives `n` when `u` is empty or
`hub.docker.com` and `u/n` otherwise, followed by `:t` exactly when
`includingLatestTag` is true. -/
theorem GetImageURL_format (config : Config) (imageConfig : ImageConfig)
    (registries : List (String × Option RegistryConfig)) (registryConfig : RegistryConfig)
    (r n t u : String) (includingLatestTag : Bool)
    (hreg : imageConfig.Registry = some r) (hname : imageConfig.Name = some n)
    (htag : imageConfig.Tag = some t) (hmap : config.Registries = some registries)
    (hfound : mapIndex registries r = some (some registryConfig))
    (hurl : registryConfig.URL = some u) :
    GetImageURL config imageConfig includingLatestTag =
      ImageURL.image ((if u = "" ∨ u = "hub.docker.com" then n else u ++ "/" ++ n) ++
        (if includingLatestTag = true then ":" ++ t else "")) := by
  have hcfg : GetRegistryConfig config imageConfig = some (Except.ok (some registryConfig)) := by
    simp [GetRegistryConfig, hreg, hmap, hfound]
  cases includingLatestTag <;> by_cases h1 : u = "" <;> by_cases h2 : u = "hub.docker.com" <;>
    simp [GetImageURL, hcfg, hname, htag, hurl, h1, h2, String.append_assoc]

/-- The example of the specification: name `app`, tag `v1`, registry `r`
configured with URL `myregistry.local`, tag included. -/
theorem GetImageURL_format_witness :
    GetImageURL
      { Registries := some [("r", some { URL := some "myregistry.local", Insecure := none, Auth := none })] }
      { Name := some "app", Tag := some "v1", Registry := some "r" } true =
      ImageURL.image "myregistry.local/app:v1" :=
  (GetImageURL_format
    { Registries := some [("r", some { URL := some "myregistry.local", Insecure := none, Auth := none })] }
    { Name := some "app", Tag := some "v1", Registry := some "r" }
    [("r", some { URL := some "myregistry.local", Insecure := none, Auth := none })]
    { URL := some "myregistry.local", Insecure := none, Auth := none }
    "r" "app" "v1" "myregistry.local" true rfl rfl rfl rfl (by decide) rfl).trans (by decide)

/-- A registry reference that is not configured ends the process with the
error `Unable to find registry`. -/
theorem GetImageURL_registry_missing (config : Config) (imageConfig : ImageConfig)
    (registries : List (String × Option RegistryConfig)) (r : String) (includingLatestTag : Bool)
    (hreg : imageConfig.Registry = some r) (hmap : config.Registries = some registries)
    (hmissing : mapIndex registries r = none) :
    GetImageURL config imageConfig includingLatestTag =
      ImageURL.fatal ("Unable to find registry: " ++ r) := by
  simp [GetImageURL, GetRegistryConfig, hreg, hmap, hmissing]

/-! ## Re-running on a provisioned registry -/

/-- Claim C10: when the probe of the deployment succeeds and reports
`Replicas > 0` with `ReadyReplicas = Replicas`, `InitInternalRegistry` returns
success, the probe is the only call it makes (no namespace is created, no
chart installed, no secret written, no service read, no wait entered), and
the registry config is the one it was given. -/
theorem InitInternalRegistry_provisioned_unchanged (lib : Htpasswd) (kubectl : Clientset σ)
    (helm : HelmClientWrapper σ) (internalRegistry : InternalRegistry)
    (registryConfig : Option RegistryConfig) (fuel : Nat) (w : World σ)
    (name ns : String) (registryDeployment : Deployment) (s : σ)
    (hname : internalRegistry.Release.Name = some name)
    (hns : internalRegistry.Release.Namespace = some ns)
    (hprobe : kubectl.DeploymentsGet ns (name ++ "-docker-registry") w.state =
      (Except.ok registryDeployment, s))
    (hpos : registryDeployment.Status.Replicas > 0)
    (hready : registryDeployment.Status.ReadyReplicas = registryDeployment.Status.Replicas) :
    InitInternalRegistry lib kubectl helm internalRegistry registryConfig fuel w =
      { outcome := Outcome.success, registryConfig := registryConfig,
        world := { state := s,
                   trace := w.trace ++ [Event.DeploymentsGet ns (name ++ "-docker-registry")] } } := by
  have h0 : ¬ registryDeployment.Status.Replicas = 0 := by omega
  simp [InitInternalRegistry, hname, hns, call, hprobe, h0, hready]

/-- A run on the healthy test cluster with the chart installed. -/
theorem InitInternalRegistry_provisioned_unchanged_witness :
    InitInternalRegistry fixtureHtpasswd (fixtureClientset healthy) fixtureHelm plainRelease
        (some aliceConfig) 24 provisioned =
      { outcome := Outcome.success, registryConfig := some aliceConfig,
        world := { state := true,
                   trace := [Event.DeploymentsGet "devspace" "reg-docker-registry"] } } :=
  InitInternalRegistry_provisioned_unchanged fixtureHtpasswd (fixtureClientset healthy) fixtureHelm
    plainRelease (some aliceConfig) 24 provisioned "reg" "devspace" readyDeployment true
    rfl rfl rfl (by decide) rfl

/-! ## Pull secrets -/

/-- On the abstract secret store `CreatePullSecret` succeeds and puts the
secret it builds under its name: by creation when the name is absent, by
update when it is present. -/
theorem CreatePullSecret_store (md5Sum : String → List (Fin 256)) (base64 : String → String)
    (ns registryURL username passwordOrToken email : String) (w : World Store) :
    CreatePullSecret md5Sum base64 storeClientset ns registryURL username passwordOrToken email w =
      (none,
        { state := w.state.put ns
            (registryPullSecret md5Sum base64 registryURL username passwordOrToken email),
          trace := w.trace ++ [Event.SecretsGet ns (GetRegistryAuthSecretName md5Sum registryURL),
            if w.state ns (GetRegistryAuthSecretName md5Sum registryURL) = none then
              Event.SecretsCreate ns
                (registryPullSecret md5Sum base64 registryURL username passwordOrToken email)
            else
              Event.SecretsUpdate ns
                (registryPullSecret md5Sum base64 registryURL username passwordOrToken email)] }) := by
  have hn : (registryPullSecret md5Sum base64 registryURL username passwordOrToken email).Name =
      GetRegistryAuthSecretName md5Sum registryURL := rfl
  unfold CreatePullSecret
  cases hs : w.state ns (GetRegistryAuthSecretName md5Sum registryURL) with
  | none => simp [call, storeClientset, Store.Get, Store.Create, hs, hn]
  | some old => simp [call, storeClientset, Store.Get, Store.Update, hs, hn]

theorem Store.put_self (s : Store) (ns : String) (secret : Secret) :
    (s.put ns secret) ns secret.Name = some secret := by
  simp [Store.put]

theorem Store.put_put (s : Store) (ns : String) (secret : Secret) :
    (s.put ns secret).put ns secret = s.put ns secret := by
  funext ns' name'
  simp only [Store.put]
  split <;> rfl

/-- Claim C7: on the abstract secret store, two calls of `CreatePullSecret`
with the same arguments both succeed, the store then holds the secret under
the name `GetRegistryAuthSecretName registryURL` in the namespace, every other
entry is the one of the initial store, and the store after the second call is
the store after the first. -/
theorem CreatePullSecret_idempotent (md5Sum : String → List (Fin 256)) (base64 : String → String)
    (ns registryURL username passwordOrToken email : String) (w : World Store) :
    (CreatePullSecret md5Sum base64 storeClientset ns registryURL username passwordOrToken email w).1
      = none ∧
    (CreatePullSecret md5Sum base64 storeClientset ns registryURL username passwordOrToken email
      (CreatePullSecret md5Sum base64 storeClientset ns registryURL username passwordOrToken email
        w).2).1 = none ∧
    (CreatePullSecret md5Sum base64 storeClientset ns registryURL username passwordOrToken email
      (CreatePullSecret md5Sum base64 storeClientset ns registryURL username passwordOrToken email
        w).2).2.state ns (GetRegistryAuthSecretName md5Sum registryURL) =
      some (registryPullSecret md5Sum base64 registryURL username passwordOrToken email) ∧
    (∀ ns' name', ¬ (ns' = ns ∧ name' = GetRegistryAuthSecretName md5Sum registryURL) →
      (CreatePullSecret md5Sum base64 storeClientset ns registryURL username passwordOrToken email
        (CreatePullSecret md5Sum base64 storeClientset ns registryURL username passwordOrToken email
          w).2).2.state ns' name' = w.state ns' name') ∧
    (CreatePullSecret md5Sum base64 storeClientset ns registryURL username passwordOrToken email
      (CreatePullSecret md5Sum base64 storeClientset ns registryURL username passwordOrToken email
        w).2).2.state =
      (CreatePullSecret md5Sum base64 storeClientset ns registryURL username passwordOrToken email
        w).2.state := by
  have hn : (registryPullSecret md5Sum base64 registryURL username passwordOrToken email).Name =
      GetRegistryAuthSecretName md5Sum registryURL := rfl
  simp only [CreatePullSecret_store, Store.put_put, true_and]
  refine ⟨?_, ?_, trivial⟩
  · rw [← hn]; exact Store.put_self _ _ _
  · intro ns' name' hne
    rw [← hn] at hne
    simp [Store.put, hne]

/-! ## The readiness wait -/

theorem call_fst {α : Type} (ev : Event) (f : σ → α × σ) (w : World σ) :
    (call ev f w).1 = (f w.state).1 := rfl

theorem call_state {α : Type} (ev : Event) (f : σ → α × σ) (w : World σ) :
    (call ev f w).2.state = (f w.state).2 := rfl

theorem call_trace {α : Type} (ev : Event) (f : σ → α × σ) (w : World σ) :
    (call ev f w).2.trace = w.trace ++ [ev] := rfl

theorem emit_state (ev : Event) (w : World σ) : (emit ev w).state = w.state := rfl

theorem emit_trace (ev : Event) (w : World σ) : (emit ev w).trace = w.trace ++ [ev] := rfl

/-- While every read of the deployment gives an error the loop of
`waitForRegistry` neither sleeps nor uses up its waiting time: whatever the
fuel, it is still running, and all it has done is read the deployment. -/
theorem waitForRegistryLoop_fetch_errors (client : Clientset σ) (ns name : String)
    (interval t : Duration) (ht : t > 0)
    (herr : ∀ s, ∃ e, (client.DeploymentsGet ns name s).1 = Except.error e) :
    ∀ (fuel : Nat) (w : World σ),
      (waitForRegistryLoop client ns name interval fuel t w).1 = Outcome.unfinished ∧
      (waitForRegistryLoop client ns name interval fuel t w).2.trace =
        w.trace ++ List.replicate fuel (Event.DeploymentsGet ns name) := by
  intro fuel
  induction fuel with
  | zero => intro w; simp [waitForRegistryLoop, ht]
  | succ n ih =>
    intro w
    obtain ⟨e, he⟩ := herr w.state
    have h := ih (call (Event.DeploymentsGet ns name) (client.DeploymentsGet ns name) w).2
    rw [waitForRegistryLoop]
    simp only [ht, if_true, call_fst, he]
    refine ⟨h.1, ?_⟩
    rw [h.2, call_trace, List.replicate_succ, List.append_assoc]
    rfl

/-- When every read of the deployment succeeds, a fuel of `n` passes is enough
for a waiting time of at most `n` intervals: the loop returns. -/
theorem waitForRegistryLoop_returns (client : Clientset σ) (ns name : String)
    (interval : Duration)
    (hok : ∀ s, ∃ d, (client.DeploymentsGet ns name s).1 = Except.ok d) :
    ∀ (n : Nat) (t : Duration) (w : World σ), t ≤ interval * n →
      (waitForRegistryLoop client ns name interval n t w).1 ≠ Outcome.unfinished := by
  intro n
  induction n with
  | zero =>
    intro t w ht
    have : ¬ t > 0 := by simpa using ht
    simp [waitForRegistryLoop, this]
  | succ n ih =>
    intro t w ht
    rw [waitForRegistryLoop]
    by_cases hpos : t > 0
    · obtain ⟨d, hd⟩ := hok w.state
      simp only [hpos, if_true, call_fst, hd]
      by_cases hr : d.Status.ReadyReplicas = d.Status.Replicas
      · simp [hr]
      · simp only [hr, if_false]
        apply ih
        have : interval * ((n + 1 : Nat) : Int) = interval * (n : Int) + interval := by
          push_cast; ring
        rw [this] at ht
        linarith
    · simp [hpos]

/-- The loop of `waitForRegistry` ends in success, in the timeout error, or is
still running; it has no other outcome. -/
theorem waitForRegistryLoop_outcome (client : Clientset σ) (ns name : String)
    (interval : Duration) :
    ∀ (fuel : Nat) (t : Duration) (w : World σ),
      (waitForRegistryLoop client ns name interval fuel t w).1 = Outcome.success ∨
      (waitForRegistryLoop client ns name interval fuel t w).1 =
        Outcome.failure "Internal registry start waiting time timed out" ∨
      (waitForRegistryLoop client ns name interval fuel t w).1 = Outcome.unfinished := by
  intro fuel
  induction fuel with
  | zero =>
    intro t w
    by_cases hpos : t > 0 <;> simp [waitForRegistryLoop, hpos]
  | succ n ih =>
    intro t w
    rw [waitForRegistryLoop]
    by_cases hpos : t > 0
    · simp only [hpos, if_true]
      split
      · exact ih _ _
      · split
        · simp
        · exact ih _ _
    · simp [hpos]

/-- When every read of the deployment succeeds, `waitForRegistry` returns
within 24 passes of its loop, with success or with the timeout error. -/
theorem waitForRegistry_returns (client : Clientset σ) (ns name : String) (w : World σ)
    (hok : ∀ s, ∃ d, (client.DeploymentsGet ns name s).1 = Except.ok d) :
    (waitForRegistry ns name client 24 w).1 = Outcome.success ∨
    (waitForRegistry ns name client 24 w).1 =
      Outcome.failure "Internal registry start waiting time timed out" := by
  have hret := waitForRegistryLoop_returns client ns name (5 * Second) hok 24 (2 * 60 * Second)
    (emit (Event.StartWait "Waiting for internal registry to start") w) (by decide)
  have hout := waitForRegistryLoop_outcome client ns name (5 * Second) 24 (2 * 60 * Second)
    (emit (Event.StartWait "Waiting for internal registry to start") w)
  unfold waitForRegistry
  rcases hout with h | h | h
  · left; simp only [h]
  · right; simp only [h]
  · exact absurd h hret

/-- When the loop of `waitForRegistry` ends in success, the status it read
last has `ReadyReplicas = Replicas`; nothing is asked of `Replicas`. -/
theorem waitForRegistryLoop_success (client : Clientset σ) (ns name : String)
    (interval : Duration) :
    ∀ (fuel : Nat) (t : Duration) (w : World σ),
      (waitForRegistryLoop client ns name interval fuel t w).1 = Outcome.success →
      ∃ (s : σ) (d : Deployment), (client.DeploymentsGet ns name s).1 = Except.ok d ∧
        d.Status.ReadyReplicas = d.Status.Replicas ∧
        (waitForRegistryLoop client ns name interval fuel t w).2.state =
          (client.DeploymentsGet ns name s).2 := by
  intro fuel
  induction fuel with
  | zero =>
    intro t w
    by_cases hpos : t > 0 <;> simp [waitForRegistryLoop, hpos]
  | succ n ih =>
    intro t w
    rw [waitForRegistryLoop]
    by_cases hpos : t > 0
    · simp only [hpos, if_true]
      split
      · exact ih _ _
      · rename_i d hd
        split
        · rename_i hr
          intro _
          exact ⟨w.state, d, hd, hr, rfl⟩
        · exact ih _ _
    · simp [hpos]

/-- Claim C4, at a cluster whose deployment reads all fail: whatever the number
of passes allowed, `waitForRegistry` has not returned; it has read the
deployment once a pass and never slept. -/
theorem waitForRegistry_fetch_errors_unfinished (fuel : Nat) :
    (waitForRegistry "devspace" "reg-docker-registry" (fixtureClientset unreachable) fuel
      provisioned).1 = Outcome.unfinished ∧
    (waitForRegistry "devspace" "reg-docker-registry" (fixtureClientset unreachable) fuel
      provisioned).2.trace =
      Event.StartWait "Waiting for internal registry to start" ::
        List.replicate fuel (Event.DeploymentsGet "devspace" "reg-docker-registry") := by
  have herr : ∀ s, ∃ e, ((fixtureClientset unreachable).DeploymentsGet "devspace"
      "reg-docker-registry" s).1 = Except.error e := by
    intro s
    cases s
    · exact ⟨_, rfl⟩
    · exact ⟨_, rfl⟩
  have h := waitForRegistryLoop_fetch_errors (fixtureClientset unreachable) "devspace"
    "reg-docker-registry" (5 * Second) (2 * 60 * Second) (by decide) herr fuel
    (emit (Event.StartWait "Waiting for internal registry to start") provisioned)
  unfold waitForRegistry
  simp only [h.1, h.2]
  exact ⟨trivial, rfl⟩

/-- Claim C5, at a cluster whose deployment has 0 desired and 0 ready replicas:
`waitForRegistry` returns success after one read, and so does the run of
`InitInternalRegistry` that entered the wait because `Replicas` is 0. -/
theorem waitForRegistry_zero_replicas_success :
    (waitForRegistry "devspace" "reg-docker-registry" (fixtureClientset scaledToZero) 24
      provisioned).1 = Outcome.success ∧
    (waitForRegistry "devspace" "reg-docker-registry" (fixtureClientset scaledToZero) 24
      provisioned).2.trace =
      [Event.StartWait "Waiting for internal registry to start",
       Event.DeploymentsGet "devspace" "reg-docker-registry", Event.StopWait] ∧
    (InitInternalRegistry fixtureHtpasswd (fixtureClientset scaledToZero) fixtureHelm plainRelease
      (some aliceConfig) 24 provisioned).outcome = Outcome.success ∧
    (InitInternalRegistry fixtureHtpasswd (fixtureClientset scaledToZero) fixtureHelm plainRelease
      (some aliceConfig) 24 provisioned).world.trace =
      [Event.DeploymentsGet "devspace" "reg-docker-registry",
       Event.StartWait "Waiting for internal registry to start",
       Event.DeploymentsGet "devspace" "reg-docker-registry", Event.StopWait] := by
  decide

/-- Claim C2, at a cluster that refuses every write of a secret: the update of
the htpasswd secret fails, and `InitInternalRegistry` goes on to read the
service, sets the endpoint and returns success. -/
theorem InitInternalRegistry_failed_write_success :
    (fixtureClientset readOnlySecrets).SecretsUpdate "devspace"
      { Name := "reg-docker-registry-secret",
        Data := some [("haSharedSecret", "s3cr3t"), ("htpasswd", "bob:$2y$old\nalice:$2y$pw\n")],
        SecretType := "Opaque" } true = (some "secrets is forbidden", true) ∧
    (InitInternalRegistry fixtureHtpasswd (fixtureClientset readOnlySecrets) fixtureHelm plainRelease
      (some aliceConfig) 24 fresh).outcome = Outcome.success ∧
    (InitInternalRegistry fixtureHtpasswd (fixtureClientset readOnlySecrets) fixtureHelm plainRelease
      (some aliceConfig) 24 fresh).registryConfig =
      some { aliceConfig with URL := some "10.0.0.7:5000", Insecure := some true } ∧
    (InitInternalRegistry fixtureHtpasswd (fixtureClientset readOnlySecrets) fixtureHelm plainRelease
      (some aliceConfig) 24 fresh).world.trace =
      [Event.DeploymentsGet "devspace" "reg-docker-registry",
       Event.NamespacesGet "devspace",
       Event.InstallChartByName "reg" "devspace" "stable/docker-registry" "",
       Event.SecretsGet "devspace" "reg-docker-registry-secret",
       Event.SecretsGet "devspace" "reg-docker-registry-secret",
       Event.SecretsUpdate "devspace"
         { Name := "reg-docker-registry-secret",
           Data := some [("haSharedSecret", "s3cr3t"), ("htpasswd", "bob:$2y$old\nalice:$2y$pw\n")],
           SecretType := "Opaque" },
       Event.ServicesGet "devspace" "reg-docker-registry",
       Event.StartWait "Waiting for internal registry to start",
       Event.DeploymentsGet "devspace" "reg-docker-registry",
       Event.StopWait] := by
  refine ⟨rfl, ?_, ?_, ?_⟩ <;> decide

/-! ## Calls are only added to the trace -/

theorem waitForRegistryLoop_trace (client : Clientset σ) (ns name : String) (interval : Duration) :
    ∀ (fuel : Nat) (t : Duration) (w : World σ),
      ∃ evs, (waitForRegistryLoop client ns name interval fuel t w).2.trace = w.trace ++ evs := by
  intro fuel
  induction fuel with
  | zero =>
    intro t w
    by_cases hpos : t > 0 <;> exact ⟨[], by simp [waitForRegistryLoop, hpos]⟩
  | succ n ih =>
    intro t w
    rw [waitForRegistryLoop]
    by_cases hpos : t > 0
    · simp only [hpos, if_true]
      split
      · obtain ⟨evs, h⟩ := ih t (call (Event.DeploymentsGet ns name) (client.DeploymentsGet ns name) w).2
        exact ⟨_ :: evs, by rw [h, call_trace, List.append_assoc]; rfl⟩
      · split
        · exact ⟨[_], call_trace _ _ _⟩
        · obtain ⟨evs, h⟩ := ih (t - interval)
            (emit (Event.Sleep interval)
              (call (Event.DeploymentsGet ns name) (client.DeploymentsGet ns name) w).2)
          exact ⟨_ :: _ :: evs, by
            rw [h, emit_trace, call_trace, List.append_assoc, List.append_assoc]; rfl⟩
    · exact ⟨[], by simp [hpos]⟩

theorem waitForRegistry_trace (client : Clientset σ) (ns name : String) (fuel : Nat) (w : World σ) :
    ∃ evs, (waitForRegistry ns name client fuel w).2.trace = w.trace ++ evs := by
  obtain ⟨evs, h⟩ := waitForRegistryLoop_trace client ns name (5 * Second) fuel (2 * 60 * Second)
    (emit (Event.StartWait "Waiting for internal registry to start") w)
  unfold waitForRegistry
  dsimp only
  split
  · exact ⟨_ :: evs, by rw [h, emit_trace, List.append_assoc]; rfl⟩
  · exact ⟨_ :: (evs ++ [Event.StopWait]), by
      simp only [emit_trace, h, List.append_assoc]; rfl⟩

theorem waitForServiceLoop_trace (kubectl : Clientset σ) (ns name : String) (interval : Duration) :
    ∀ (fuel : Nat) (t : Duration) (w : World σ),
      ∃ evs, (waitForServiceLoop kubectl ns name interval fuel t w).2.trace = w.trace ++ evs := by
  intro fuel
  induction fuel with
  | zero => intro t w; exact ⟨[], by simp [waitForServiceLoop]⟩
  | succ n ih =>
    intro t w
    rw [waitForServiceLoop]
    dsimp only
    split
    · exact ⟨[_], call_trace _ _ _⟩
    · split
      · exact ⟨[_], call_trace _ _ _⟩
      · split
        · exact ⟨[_, _], by simp only [emit_trace, call_trace, List.append_assoc]; rfl⟩
        · obtain ⟨evs, h⟩ := ih (t - interval)
            (emit (Event.Sleep interval)
              (call (Event.ServicesGet ns name) (kubectl.ServicesGet ns name) w).2)
          exact ⟨_ :: _ :: evs, by
            rw [h, emit_trace, call_trace, List.append_assoc, List.append_assoc]; rfl⟩

theorem Itoa_registryPort : Itoa registryPort = "5000" := by decide

/-- The service loop breaks with `ip:5000`, where `ip` is a non-empty cluster
address that a read of the service returned. -/
theorem waitForServiceLoop_ok (kubectl : Clientset σ) (ns name : String) (interval : Duration) :
    ∀ (fuel : Nat) (t : Duration) (w : World σ) (serviceHostname : String),
      (waitForServiceLoop kubectl ns name interval fuel t w).1 = Except.ok serviceHostname →
      ∃ (s : σ) (ip : String), (kubectl.ServicesGet ns name s).1 = Except.ok { ClusterIP := ip } ∧
        ip.length > 0 ∧ serviceHostname = ip ++ ":5000" := by
  intro fuel
  induction fuel with
  | zero => intro t w host h; simp [waitForServiceLoop] at h
  | succ n ih =>
    intro t w host
    rw [waitForServiceLoop]
    dsimp only
    split
    · intro h; simp at h
    · rename_i svc hsvc
      split
      · rename_i hip
        intro h
        refine ⟨w.state, svc.ClusterIP, hsvc, hip, ?_⟩
        have h' : svc.ClusterIP ++ ":" ++ Itoa registryPort = host := by
          simpa using h
        rw [← h', Itoa_registryPort, String.append_assoc]
        rfl
      · split
        · intro h; simp at h
        · exact ih _ _ host

/-- A fuel of 20 passes is enough for the service loop: it has returned,
whatever the cluster answers. -/
theorem waitForServiceLoop_returns (kubectl : Clientset σ) (ns name : String)
    (interval : Duration) :
    ∀ (n : Nat) (t : Duration) (w : World σ), 0 < n → t ≤ interval * n →
      (waitForServiceLoop kubectl ns name interval n t w).1 ≠ Except.error Outcome.unfinished := by
  intro n
  induction n with
  | zero => intro t w hn; omega
  | succ n ih =>
    intro t w _ ht
    rw [waitForServiceLoop]
    dsimp only
    split
    · simp
    · split
      · simp
      · split
        · simp
        · rename_i hlt
          have hcast : interval * ((n + 1 : Nat) : Int) = interval * (n : Int) + interval := by
            push_cast; ring
          rw [hcast] at ht
          have hle : t - interval ≤ interval * (n : Int) := by linarith
          have hn : 0 < n := by
            rcases Nat.eq_zero_or_pos n with h0 | h0
            · subst h0
              simp only [Nat.cast_zero, mul_zero] at hle
              exact absurd hle hlt
            · exact h0
          exact ih _ _ hn hle

theorem resolveEndpoint_trace (kubectl : Clientset σ) (name ns : String) (values : Option Values)
    (registryConfig : Option RegistryConfig) (fuel : Nat) (w : World σ) :
    ∃ evs, (resolveEndpoint kubectl name ns values registryConfig fuel w).2.2.trace =
      w.trace ++ evs := by
  obtain ⟨evs, h⟩ := waitForServiceLoop_trace kubectl ns (name ++ "-docker-registry") (3 * Second)
    fuel (60 * Second) w
  unfold resolveEndpoint
  dsimp only
  refine ⟨evs, ?_⟩
  split
  · exact h
  · split <;> exact h

/-- The shape of a run whose probe of the deployment gives an error: lines
93–157, then the endpoint, then the wait for the registry. -/
theorem InitInternalRegistry_of_probe_error (lib : Htpasswd) (kubectl : Clientset σ)
    (helm : HelmClientWrapper σ) (internalRegistry : InternalRegistry)
    (registryConfig : Option RegistryConfig) (fuel : Nat) (w : World σ)
    (name ns : String) (e : Err)
    (hname : internalRegistry.Release.Name = some name)
    (hns : internalRegistry.Release.Namespace = some ns)
    (hprobe : (kubectl.DeploymentsGet ns (name ++ "-docker-registry") w.state).1 = Except.error e) :
    InitInternalRegistry lib kubectl helm internalRegistry registryConfig fuel w =
      match (provisionRegistry kubectl helm lib name ns internalRegistry.Release.Values
          registryConfig fuel
          (call (Event.DeploymentsGet ns (name ++ "-docker-registry"))
            (kubectl.DeploymentsGet ns (name ++ "-docker-registry")) w).2).1 with
      | some outcome =>
        { outcome := outcome,
          registryConfig := (provisionRegistry kubectl helm lib name ns
            internalRegistry.Release.Values registryConfig fuel
            (call (Event.DeploymentsGet ns (name ++ "-docker-registry"))
              (kubectl.DeploymentsGet ns (name ++ "-docker-registry")) w).2).2.1,
          world := (provisionRegistry kubectl helm lib name ns
            internalRegistry.Release.Values registryConfig fuel
            (call (Event.DeploymentsGet ns (name ++ "-docker-registry"))
              (kubectl.DeploymentsGet ns (name ++ "-docker-registry")) w).2).2.2 }
      | none =>
        { outcome := (waitForRegistry ns (name ++ "-docker-registry") kubectl fuel
            (provisionRegistry kubectl helm lib name ns
              internalRegistry.Release.Values registryConfig fuel
              (call (Event.DeploymentsGet ns (name ++ "-docker-registry"))
                (kubectl.DeploymentsGet ns (name ++ "-docker-registry")) w).2).2.2).1,
          registryConfig := (provisionRegistry kubectl helm lib name ns
            internalRegistry.Release.Values registryConfig fuel
            (call (Event.DeploymentsGet ns (name ++ "-docker-registry"))
              (kubectl.DeploymentsGet ns (name ++ "-docker-registry")) w).2).2.1,
          world := (waitForRegistry ns (name ++ "-docker-registry") kubectl fuel
            (provisionRegistry kubectl helm lib name ns
              internalRegistry.Release.Values registryConfig fuel
              (call (Event.DeploymentsGet ns (name ++ "-docker-registry"))
                (kubectl.DeploymentsGet ns (name ++ "-docker-registry")) w).2).2.2).2 } := by
  simp only [InitInternalRegistry, hname, hns, call_fst, hprobe]

/-! ## The htpasswd secret -/

theorem waitForServiceLoop_trace_pos (kubectl : Clientset σ) (ns name : String)
    (interval : Duration) (fuel : Nat) (t : Duration) (w : World σ) (hfuel : 0 < fuel) :
    ∃ evs, (waitForServiceLoop kubectl ns name interval fuel t w).2.trace =
      w.trace ++ Event.ServicesGet ns name :: evs := by
  obtain ⟨n, rfl⟩ : ∃ n, fuel = n + 1 := ⟨fuel - 1, by omega⟩
  rw [waitForServiceLoop]
  dsimp only
  split
  · exact ⟨[], call_trace _ _ _⟩
  · split
    · exact ⟨[], call_trace _ _ _⟩
    · split
      · exact ⟨[_], by simp only [emit_trace, call_trace, List.append_assoc]; rfl⟩
      · obtain ⟨evs, h⟩ := waitForServiceLoop_trace kubectl ns name interval n (t - interval)
          (emit (Event.Sleep interval)
            (call (Event.ServicesGet ns name) (kubectl.ServicesGet ns name) w).2)
        exact ⟨_ :: evs, by
          rw [h, emit_trace, call_trace, List.append_assoc, List.append_assoc]; rfl⟩

/-- After lines 93–157 have run through, the run reads the registry service
and every later call is added behind that read. -/
theorem InitInternalRegistry_trace_of_prepare (lib : Htpasswd) (kubectl : Clientset σ)
    (helm : HelmClientWrapper σ) (internalRegistry : InternalRegistry)
    (registryConfig : Option RegistryConfig) (fuel : Nat) (w : World σ)
    (name ns : String) (e : Err)
    (hname : internalRegistry.Release.Name = some name)
    (hns : internalRegistry.Release.Namespace = some ns)
    (hprobe : (kubectl.DeploymentsGet ns (name ++ "-docker-registry") w.state).1 = Except.error e)
    (hprep : (prepareRegistry kubectl helm lib name ns internalRegistry.Release.Values registryConfig
      (call (Event.DeploymentsGet ns (name ++ "-docker-registry"))
        (kubectl.DeploymentsGet ns (name ++ "-docker-registry")) w).2).1 = none)
    (hfuel : 0 < fuel) :
    ∃ evs, (InitInternalRegistry lib kubectl helm internalRegistry registryConfig fuel w).world.trace =
      (prepareRegistry kubectl helm lib name ns internalRegistry.Release.Values registryConfig
        (call (Event.DeploymentsGet ns (name ++ "-docker-registry"))
          (kubectl.DeploymentsGet ns (name ++ "-docker-registry")) w).2).2.trace ++
        Event.ServicesGet ns (name ++ "-docker-registry") :: evs := by
  rw [InitInternalRegistry_of_probe_error lib kubectl helm internalRegistry registryConfig fuel w
    name ns e hname hns hprobe]
  have hprov : ∀ w1 : World σ,
      (prepareRegistry kubectl helm lib name ns internalRegistry.Release.Values registryConfig
        w1).1 = none →
      provisionRegistry kubectl helm lib name ns internalRegistry.Release.Values registryConfig
        fuel w1 =
      resolveEndpoint kubectl name ns internalRegistry.Release.Values registryConfig fuel
        (prepareRegistry kubectl helm lib name ns internalRegistry.Release.Values registryConfig
          w1).2 := by
    intro w1 h1
    simp only [provisionRegistry, h1]
  rw [hprov _ hprep]
  have hres : ∀ w2 : World σ, ∃ evs,
      (resolveEndpoint kubectl name ns internalRegistry.Release.Values registryConfig fuel
        w2).2.2.trace = w2.trace ++ Event.ServicesGet ns (name ++ "-docker-registry") :: evs := by
    intro w2
    obtain ⟨evs, h⟩ := waitForServiceLoop_trace_pos kubectl ns (name ++ "-docker-registry")
      (3 * Second) fuel (60 * Second) w2 hfuel
    refine ⟨evs, ?_⟩
    unfold resolveEndpoint
    dsimp only
    split
    · exact h
    · split <;> exact h
  obtain ⟨evs, h⟩ := hres (prepareRegistry kubectl helm lib name ns
    internalRegistry.Release.Values registryConfig
    (call (Event.DeploymentsGet ns (name ++ "-docker-registry"))
      (kubectl.DeploymentsGet ns (name ++ "-docker-registry")) w).2).2
  split
  · exact ⟨evs, h⟩
  · obtain ⟨evs', h'⟩ := waitForRegistry_trace kubectl ns (name ++ "-docker-registry") fuel
      (resolveEndpoint kubectl name ns internalRegistry.Release.Values registryConfig fuel
        (prepareRegistry kubectl helm lib name ns internalRegistry.Release.Values registryConfig
          (call (Event.DeploymentsGet ns (name ++ "-docker-registry"))
            (kubectl.DeploymentsGet ns (name ++ "-docker-registry")) w).2).2).2.2
    exact ⟨evs ++ evs', by simp only [h', h, List.append_assoc, List.cons_append]⟩

/-- After lines 93–157 have run through, every later call of the run is added
behind theirs. -/
theorem InitInternalRegistry_trace_extends (lib : Htpasswd) (kubectl : Clientset σ)
    (helm : HelmClientWrapper σ) (internalRegistry : InternalRegistry)
    (registryConfig : Option RegistryConfig) (fuel : Nat) (w : World σ)
    (name ns : String) (e : Err)
    (hname : internalRegistry.Release.Name = some name)
    (hns : internalRegistry.Release.Namespace = some ns)
    (hprobe : (kubectl.DeploymentsGet ns (name ++ "-docker-registry") w.state).1 = Except.error e)
    (hprep : (prepareRegistry kubectl helm lib name ns internalRegistry.Release.Values registryConfig
      (call (Event.DeploymentsGet ns (name ++ "-docker-registry"))
        (kubectl.DeploymentsGet ns (name ++ "-docker-registry")) w).2).1 = none) :
    ∃ evs, (InitInternalRegistry lib kubectl helm internalRegistry registryConfig fuel w).world.trace =
      (prepareRegistry kubectl helm lib name ns internalRegistry.Release.Values registryConfig
        (call (Event.DeploymentsGet ns (name ++ "-docker-registry"))
          (kubectl.DeploymentsGet ns (name ++ "-docker-registry")) w).2).2.trace ++ evs := by
  rcases Nat.eq_zero_or_pos fuel with h0 | hpos
  · subst h0
    refine ⟨[], ?_⟩
    rw [InitInternalRegistry_of_probe_error lib kubectl helm internalRegistry registryConfig 0 w
      name ns e hname hns hprobe]
    simp [provisionRegistry, hprep, resolveEndpoint, waitForServiceLoop]
  · obtain ⟨evs, h⟩ := InitInternalRegistry_trace_of_prepare lib kubectl helm internalRegistry
      registryConfig fuel w name ns e hname hns hprobe hprep hpos
    exact ⟨_, h⟩

/-- With the namespace there, the chart installed and auth configured, lines
93–157 end as the lines of the htpasswd secret do. -/
theorem prepareRegistry_auth (kubectl : Clientset σ) (helm : HelmClientWrapper σ) (lib : Htpasswd)
    (name ns : String) (values : Option Values) (c : RegistryConfig) (registryAuth : RegistryAuth)
    (w w2 : World σ) (s3 : σ)
    (hnsok : ensureNamespace kubectl ns w = (none, w2))
    (hchart : helm.InstallChartByName name ns "stable/docker-registry" "" values w2.state = (none, s3))
    (hauth : c.Auth = some registryAuth) :
    prepareRegistry kubectl helm lib name ns values (some c) w =
      updateHtpasswdSecret kubectl lib name ns registryAuth
        { state := s3,
          trace := w2.trace ++ [Event.InstallChartByName name ns "stable/docker-registry" ""] } := by
  simp only [prepareRegistry, hnsok, call, hchart, Option.bind, hauth]
  split <;> rename_i h
  · exact Prod.ext h.symm rfl
  · exact Prod.ext h.symm rfl

/-- A failed read of the htpasswd secret ends the lines of the secret with the
error `Unable to retrieve secret for docker registry`. -/
theorem updateHtpasswdSecret_read_error (kubectl : Clientset σ) (lib : Htpasswd)
    (name ns : String) (registryAuth : RegistryAuth) (w : World σ) (e : Err)
    (hread : (kubectl.SecretsGet ns (name ++ "-docker-registry-secret") w.state).1 = Except.error e) :
    updateHtpasswdSecret kubectl lib name ns registryAuth w =
      (some (Outcome.failure ("Unable to retrieve secret for docker registry: " ++ e)),
        { state := (kubectl.SecretsGet ns (name ++ "-docker-registry-secret") w.state).2,
          trace := w.trace ++ [Event.SecretsGet ns (name ++ "-docker-registry-secret")] }) := by
  simp only [updateHtpasswdSecret, call_fst, hread]
  rfl

/-- After a successful read and a successful merge the merged secret is
written, by `Create` or by `Update`, and control leaves the lines of the
secret whatever the write answers. -/
theorem updateHtpasswdSecret_written (kubectl : Clientset σ) (lib : Htpasswd)
    (name ns A pw : String) (w : World σ) (secret written : Secret)
    (hread : (kubectl.SecretsGet ns (name ++ "-docker-registry-secret") w.state).1 = Except.ok secret)
    (hmerge : mergeHtpasswd lib
      (if secret.Data = none then
        { Name := name ++ "-docker-registry-secret", Data := some [], SecretType := "" }
       else secret) A pw = Except.ok written) :
    (updateHtpasswdSecret kubectl lib name ns { Username := some A, Password := some pw } w).1 = none ∧
    ((updateHtpasswdSecret kubectl lib name ns { Username := some A, Password := some pw } w).2.trace =
        w.trace ++ [Event.SecretsGet ns (name ++ "-docker-registry-secret"),
          Event.SecretsGet ns (name ++ "-docker-registry-secret"), Event.SecretsCreate ns written] ∨
     (updateHtpasswdSecret kubectl lib name ns { Username := some A, Password := some pw } w).2.trace =
        w.trace ++ [Event.SecretsGet ns (name ++ "-docker-registry-secret"),
          Event.SecretsGet ns (name ++ "-docker-registry-secret"), Event.SecretsUpdate ns written]) := by
  simp only [updateHtpasswdSecret, call_fst, hread, hmerge, true_and]
  split
  · left; simp [call]
  · right; simp [call]

/-- The merge on a secret that holds an htpasswd file: the file is parsed, the
entry of the user is set, and the new file replaces the old one. -/
theorem mergeHtpasswd_stored (lib : Htpasswd) (secret : Secret) (d : List (String × String))
    (A pw oldBytes h : String) (old : HashedPasswords)
    (hdata : secret.Data = some d) (hstore : mapIndex d "htpasswd" = some oldBytes)
    (hempty : lib.ParseHtpasswd "" = ([], none))
    (hparse : lib.ParseHtpasswd oldBytes = (old, none))
    (hhash : lib.hashBCrypt pw = Except.ok h) :
    mergeHtpasswd lib secret A pw =
      Except.ok { secret with
        Data := some (mapAssign d "htpasswd" (lib.Bytes (mapAssign old A h))) } := by
  have hold : (if oldBytes.length ≠ 0 then (lib.ParseHtpasswd oldBytes).1 else []) = old := by
    by_cases hz : oldBytes.length = 0
    · have : oldBytes = "" := (string_length_eq_zero _).mp hz
      subst this
      rw [hempty] at hparse
      simp only [hz, ne_eq, not_true_eq_false, if_false]
      exact congrArg Prod.fst hparse
    · simp only [ne_eq, hz, not_false_eq_true, if_true, hparse]
  simp only [mergeHtpasswd, hdata, Option.getD_some, hstore, hold, SetPassword, hhash]

/-- The merge on a secret without data starts from the empty store. -/
theorem mergeHtpasswd_fresh (lib : Htpasswd) (secretName A pw h : String)
    (hhash : lib.hashBCrypt pw = Except.ok h) :
    mergeHtpasswd lib { Name := secretName, Data := some [], SecretType := "" } A pw =
      Except.ok { Name := secretName, Data := some [("htpasswd", lib.Bytes [(A, h)])],
                  SecretType := "" } := by
  simp [mergeHtpasswd, mapIndex, SetPassword, hhash, mapAssign]

/-- Claim C1: in a run that provisions the registry with auth configured for
user `A`, where the htpasswd secret is read and its file parses to the mapping
`old`, the run writes the secret back with a file under the key `htpasswd`
that is the serialisation of a mapping holding the new hash for `A` and, for
every other user, exactly the entry of `old`: the same hash when `old` has
the user, none when it has not. -/
theorem InitInternalRegistry_merge_preserves_users (lib : Htpasswd) (kubectl : Clientset σ)
    (helm : HelmClientWrapper σ) (internalRegistry : InternalRegistry) (c : RegistryConfig)
    (fuel : Nat) (w w2 : World σ) (name ns A pw : String) (e : Err) (s3 : σ)
    (secret : Secret) (d : List (String × String)) (oldBytes h : String) (old : HashedPasswords)
    (hname : internalRegistry.Release.Name = some name)
    (hns : internalRegistry.Release.Namespace = some ns)
    (hprobe : (kubectl.DeploymentsGet ns (name ++ "-docker-registry") w.state).1 = Except.error e)
    (hnsok : ensureNamespace kubectl ns
      (call (Event.DeploymentsGet ns (name ++ "-docker-registry"))
        (kubectl.DeploymentsGet ns (name ++ "-docker-registry")) w).2 = (none, w2))
    (hchart : helm.InstallChartByName name ns "stable/docker-registry" ""
      internalRegistry.Release.Values w2.state = (none, s3))
    (hauth : c.Auth = some { Username := some A, Password := some pw })
    (hread : (kubectl.SecretsGet ns (name ++ "-docker-registry-secret") s3).1 = Except.ok secret)
    (hdata : secret.Data = some d) (hstore : mapIndex d "htpasswd" = some oldBytes)
    (hempty : lib.ParseHtpasswd "" = ([], none))
    (hparse : lib.ParseHtpasswd oldBytes = (old, none))
    (hhash : lib.hashBCrypt pw = Except.ok h) :
    ∃ (written : Secret) (new : HashedPasswords),
      (Event.SecretsCreate ns written ∈
          (InitInternalRegistry lib kubectl helm internalRegistry (some c) fuel w).world.trace ∨
        Event.SecretsUpdate ns written ∈
          (InitInternalRegistry lib kubectl helm internalRegistry (some c) fuel w).world.trace) ∧
      written.Name = secret.Name ∧
      written.Data.bind (fun m => mapIndex m "htpasswd") = some (lib.Bytes new) ∧
      mapIndex new A = some h ∧
      ∀ B : String, B ≠ A → mapIndex new B = mapIndex old B := by
  have hprep := prepareRegistry_auth kubectl helm lib name ns internalRegistry.Release.Values c
    { Username := some A, Password := some pw } _ w2 s3 hnsok hchart hauth
  have hnot : ¬ secret.Data = none := by simp [hdata]
  have hmerge := mergeHtpasswd_stored lib secret d A pw oldBytes h old hdata hstore hempty hparse
    hhash
  have hw := updateHtpasswdSecret_written kubectl lib name ns A pw
    { state := s3,
      trace := w2.trace ++ [Event.InstallChartByName name ns "stable/docker-registry" ""] }
    secret _ hread (by rw [if_neg hnot]; exact hmerge)
  rw [← hprep] at hw
  obtain ⟨evs, htrace⟩ := InitInternalRegistry_trace_extends lib kubectl helm internalRegistry
    (some c) fuel w name ns e hname hns hprobe hw.1
  refine ⟨{ secret with
      Data := some (mapAssign d "htpasswd" (lib.Bytes (mapAssign old A h))) },
    mapAssign old A h, ?_, rfl, ?_, mapIndex_mapAssign_self _ _ _,
    fun B hB => mapIndex_mapAssign_of_ne _ _ _ _ hB⟩
  · rw [htrace]
    rcases hw.2 with h2 | h2
    · left; rw [h2]; simp
    · right; rw [h2]; simp
  · exact mapIndex_mapAssign_self _ _ _

/-- A run on the healthy test cluster: the chart secret holds the user bob,
the run adds alice and writes bob back as he was. -/
theorem InitInternalRegistry_merge_preserves_users_witness :
    ∃ (written : Secret) (new : HashedPasswords),
      (Event.SecretsCreate "devspace" written ∈
          (InitInternalRegistry fixtureHtpasswd (fixtureClientset healthy) fixtureHelm plainRelease
            (some aliceConfig) 24 fresh).world.trace ∨
        Event.SecretsUpdate "devspace" written ∈
          (InitInternalRegistry fixtureHtpasswd (fixtureClientset healthy) fixtureHelm plainRelease
            (some aliceConfig) 24 fresh).world.trace) ∧
      written.Name = chartSecret.Name ∧
      written.Data.bind (fun m => mapIndex m "htpasswd") = some (fixtureHtpasswd.Bytes new) ∧
      mapIndex new "alice" = some "$2y$pw" ∧
      ∀ B : String, B ≠ "alice" → mapIndex new B = mapIndex [("bob", "$2y$old")] B :=
  InitInternalRegistry_merge_preserves_users fixtureHtpasswd (fixtureClientset healthy) fixtureHelm
    plainRelease aliceConfig 24 fresh
    { state := false,
      trace := [Event.DeploymentsGet "devspace" "reg-docker-registry",
                Event.NamespacesGet "devspace"] }
    "reg" "devspace" "alice" "pw" "deployments.extensions not found" true chartSecret
    [("haSharedSecret", "s3cr3t"), ("htpasswd", "bob:$2y$old
")] "bob:$2y$old
" "$2y$pw"
    [("bob", "$2y$old")] rfl rfl rfl rfl rfl rfl rfl rfl (by decide) rfl rfl rfl

/-- Claim C3 as stated fails at a cluster in which the htpasswd secret does not
exist: the read returns not-found, the run ends with the error `Unable to
retrieve secret for docker registry`, and no secret is created. -/
theorem InitInternalRegistry_secret_missing_fails :
    (fixtureClientset secretMissing).SecretsGet "devspace" "reg-docker-registry-secret" true =
      (Except.error "secrets \"reg-docker-registry-secret\" not found", true) ∧
    (InitInternalRegistry fixtureHtpasswd (fixtureClientset secretMissing) fixtureHelm plainRelease
      (some aliceConfig) 24 fresh).outcome =
      Outcome.failure ("Unable to retrieve secret for docker registry: " ++
        "secrets \"reg-docker-registry-secret\" not found") ∧
    (InitInternalRegistry fixtureHtpasswd (fixtureClientset secretMissing) fixtureHelm plainRelease
      (some aliceConfig) 24 fresh).world.trace =
      [Event.DeploymentsGet "devspace" "reg-docker-registry",
       Event.NamespacesGet "devspace",
       Event.InstallChartByName "reg" "devspace" "stable/docker-registry" "",
       Event.SecretsGet "devspace" "reg-docker-registry-secret"] := by
  refine ⟨rfl, ?_, ?_⟩ <;> decide

/-- Claim C3, amended: in a run that provisions the registry with auth
configured, a read of the htpasswd secret that gives an error (not-found
included) ends the run with `Unable to retrieve secret for docker registry`
and the cause, with nothing written and the registry config untouched.  A
secret that is read and has no data is tolerated: the merge starts from the
empty store and the run writes a secret whose htpasswd file holds exactly the
entry of the configured user. -/
theorem InitInternalRegistry_htpasswd_secret_read (lib : Htpasswd) (kubectl : Clientset σ)
    (helm : HelmClientWrapper σ) (internalRegistry : InternalRegistry) (c : RegistryConfig)
    (fuel : Nat) (w w2 : World σ) (name ns A pw : String) (e : Err) (s3 : σ)
    (hname : internalRegistry.Release.Name = some name)
    (hns : internalRegistry.Release.Namespace = some ns)
    (hprobe : (kubectl.DeploymentsGet ns (name ++ "-docker-registry") w.state).1 = Except.error e)
    (hnsok : ensureNamespace kubectl ns
      (call (Event.DeploymentsGet ns (name ++ "-docker-registry"))
        (kubectl.DeploymentsGet ns (name ++ "-docker-registry")) w).2 = (none, w2))
    (hchart : helm.InstallChartByName name ns "stable/docker-registry" ""
      internalRegistry.Release.Values w2.state = (none, s3))
    (hauth : c.Auth = some { Username := some A, Password := some pw }) :
    (∀ cause : Err,
      (kubectl.SecretsGet ns (name ++ "-docker-registry-secret") s3).1 = Except.error cause →
      (InitInternalRegistry lib kubectl helm internalRegistry (some c) fuel w).outcome =
        Outcome.failure ("Unable to retrieve secret for docker registry: " ++ cause) ∧
      (InitInternalRegistry lib kubectl helm internalRegistry (some c) fuel w).registryConfig =
        some c ∧
      (InitInternalRegistry lib kubectl helm internalRegistry (some c) fuel w).world.trace =
        w2.trace ++ [Event.InstallChartByName name ns "stable/docker-registry" "",
          Event.SecretsGet ns (name ++ "-docker-registry-secret")]) ∧
    (∀ (secret : Secret) (h : String),
      (kubectl.SecretsGet ns (name ++ "-docker-registry-secret") s3).1 = Except.ok secret →
      secret.Data = none → lib.hashBCrypt pw = Except.ok h →
      ∃ (ev : Event) (evs : List Event),
        (ev = Event.SecretsCreate ns
            { Name := name ++ "-docker-registry-secret",
              Data := some [("htpasswd", lib.Bytes [(A, h)])], SecretType := "" } ∨
         ev = Event.SecretsUpdate ns
            { Name := name ++ "-docker-registry-secret",
              Data := some [("htpasswd", lib.Bytes [(A, h)])], SecretType := "" }) ∧
        (InitInternalRegistry lib kubectl helm internalRegistry (some c) fuel w).world.trace =
          w2.trace ++ [Event.InstallChartByName name ns "stable/docker-registry" "",
            Event.SecretsGet ns (name ++ "-docker-registry-secret"),
            Event.SecretsGet ns (name ++ "-docker-registry-secret"), ev] ++ evs) := by
  have hprep := prepareRegistry_auth kubectl helm lib name ns internalRegistry.Release.Values c
    { Username := some A, Password := some pw } _ w2 s3 hnsok hchart hauth
  constructor
  · intro cause hread
    have hblock := updateHtpasswdSecret_read_error kubectl lib name ns
      { Username := some A, Password := some pw }
      { state := s3,
        trace := w2.trace ++ [Event.InstallChartByName name ns "stable/docker-registry" ""] }
      cause hread
    rw [← hprep] at hblock
    rw [InitInternalRegistry_of_probe_error lib kubectl helm internalRegistry (some c) fuel w
      name ns e hname hns hprobe]
    simp [provisionRegistry, hblock]
  · intro secret h hread hnil hhash
    have hmerge := mergeHtpasswd_fresh lib (name ++ "-docker-registry-secret") A pw h hhash
    have hw := updateHtpasswdSecret_written kubectl lib name ns A pw
      { state := s3,
        trace := w2.trace ++ [Event.InstallChartByName name ns "stable/docker-registry" ""] }
      secret _ hread (by rw [if_pos hnil]; exact hmerge)
    rw [← hprep] at hw
    obtain ⟨evs, htrace⟩ := InitInternalRegistry_trace_extends lib kubectl helm internalRegistry
      (some c) fuel w name ns e hname hns hprobe hw.1
    rcases hw.2 with h2 | h2
    · refine ⟨_, evs, Or.inl rfl, ?_⟩
      rw [htrace, h2]
      simp
    · refine ⟨_, evs, Or.inr rfl, ?_⟩
      rw [htrace, h2]
      simp

/-- Two runs on test clusters: one in which the htpasswd secret does not
exist, one in which it exists and has no data. -/
theorem InitInternalRegistry_htpasswd_secret_read_witness :
    ((InitInternalRegistry fixtureHtpasswd (fixtureClientset secretMissing) fixtureHelm plainRelease
        (some aliceConfig) 24 fresh).outcome =
        Outcome.failure ("Unable to retrieve secret for docker registry: " ++
          "secrets \"reg-docker-registry-secret\" not found") ∧
      (InitInternalRegistry fixtureHtpasswd (fixtureClientset secretMissing) fixtureHelm plainRelease
        (some aliceConfig) 24 fresh).registryConfig = some aliceConfig ∧
      (InitInternalRegistry fixtureHtpasswd (fixtureClientset secretMissing) fixtureHelm plainRelease
        (some aliceConfig) 24 fresh).world.trace =
        [Event.DeploymentsGet "devspace" "reg-docker-registry", Event.NamespacesGet "devspace"] ++
          [Event.InstallChartByName "reg" "devspace" "stable/docker-registry" "",
            Event.SecretsGet "devspace" ("reg" ++ "-docker-registry-secret")]) ∧
    (∃ (ev : Event) (evs : List Event),
      (ev = Event.SecretsCreate "devspace"
          { Name := "reg" ++ "-docker-registry-secret",
            Data := some [("htpasswd", fixtureHtpasswd.Bytes [("alice", "$2y$pw")])],
            SecretType := "" } ∨
       ev = Event.SecretsUpdate "devspace"
          { Name := "reg" ++ "-docker-registry-secret",
            Data := some [("htpasswd", fixtureHtpasswd.Bytes [("alice", "$2y$pw")])],
            SecretType := "" }) ∧
      (InitInternalRegistry fixtureHtpasswd (fixtureClientset secretWithoutData) fixtureHelm
        plainRelease (some aliceConfig) 24 fresh).world.trace =
        [Event.DeploymentsGet "devspace" "reg-docker-registry", Event.NamespacesGet "devspace"] ++
          [Event.InstallChartByName "reg" "devspace" "stable/docker-registry" "",
            Event.SecretsGet "devspace" ("reg" ++ "-docker-registry-secret"),
            Event.SecretsGet "devspace" ("reg" ++ "-docker-registry-secret"), ev] ++ evs) :=
  ⟨(InitInternalRegistry_htpasswd_secret_read fixtureHtpasswd (fixtureClientset secretMissing)
      fixtureHelm plainRelease aliceConfig 24 fresh
      { state := false,
        trace := [Event.DeploymentsGet "devspace" "reg-docker-registry",
                  Event.NamespacesGet "devspace"] }
      "reg" "devspace" "alice" "pw" "deployments.extensions not found" true
      rfl rfl rfl rfl rfl rfl).1 _ rfl,
   (InitInternalRegistry_htpasswd_secret_read fixtureHtpasswd (fixtureClientset secretWithoutData)
      fixtureHelm plainRelease aliceConfig 24 fresh
      { state := false,
        trace := [Event.DeploymentsGet "devspace" "reg-docker-registry",
                  Event.NamespacesGet "devspace"] }
      "reg" "devspace" "alice" "pw" "deployments.extensions not found" true
      rfl rfl rfl rfl rfl rfl).2
      { Name := "reg-docker-registry-secret", Data := none, SecretType := "Opaque" } "$2y$pw"
      rfl rfl rfl⟩

/-! ## The endpoint -/

theorem ingressHostnameOf_enabled (v : Values) (host : String)
    (henabled : (v.QueryBool ["ingress", "enabled"]).1 = true)
    (hhost : (v.QueryString ["ingress", "hosts", "0"]).1 = host) (hlen : host.length > 0) :
    ingressHostnameOf (some v) = host := by
  simp [ingressHostnameOf, henabled, hhost, hlen]

theorem ingressHostnameOf_other (values : Option Values)
    (hother : ¬ ∃ v, values = some v ∧ (v.QueryBool ["ingress", "enabled"]).1 = true ∧
      ((v.QueryString ["ingress", "hosts", "0"]).1).length > 0) :
    ingressHostnameOf values = "" := by
  cases values with
  | none => rfl
  | some v =>
    simp only [ingressHostnameOf]
    by_cases h1 : (v.QueryBool ["ingress", "enabled"]).1 = true
    · by_cases h2 : ((v.QueryString ["ingress", "hosts", "0"]).1).length > 0
      · exact absurd ⟨v, rfl, h1, h2⟩ hother
      · simp [h1, h2]
    · simp [h1]

/-- Claim C6: in a run that provisions the registry and reaches the endpoint —
lines 93–157 have run through and the service loop has broken with a host
name — the host name is `ip:5000` for a non-empty cluster address `ip` read
from the service.  If ingress is enabled and the first ingress host `h` is not
empty, the registry config ends with URL `h` and Insecure false; in every
other case it ends with URL `ip:5000` and Insecure true. -/
theorem InitInternalRegistry_endpoint (lib : Htpasswd) (kubectl : Clientset σ)
    (helm : HelmClientWrapper σ) (internalRegistry : InternalRegistry) (c : RegistryConfig)
    (fuel : Nat) (w w2 w3 : World σ) (name ns serviceHostname : String) (e : Err)
    (hname : internalRegistry.Release.Name = some name)
    (hns : internalRegistry.Release.Namespace = some ns)
    (hprobe : (kubectl.DeploymentsGet ns (name ++ "-docker-registry") w.state).1 = Except.error e)
    (hprep : prepareRegistry kubectl helm lib name ns internalRegistry.Release.Values (some c)
      (call (Event.DeploymentsGet ns (name ++ "-docker-registry"))
        (kubectl.DeploymentsGet ns (name ++ "-docker-registry")) w).2 = (none, w2))
    (hservice : waitForServiceLoop kubectl ns (name ++ "-docker-registry") (3 * Second) fuel
      (60 * Second) w2 = (Except.ok serviceHostname, w3)) :
    ∃ ip : String, ip.length > 0 ∧
      (∃ s, (kubectl.ServicesGet ns (name ++ "-docker-registry") s).1 =
        Except.ok { ClusterIP := ip }) ∧
      serviceHostname = ip ++ ":5000" ∧
      (∀ (v : Values) (h : String), internalRegistry.Release.Values = some v →
        (v.QueryBool ["ingress", "enabled"]).1 = true →
        (v.QueryString ["ingress", "hosts", "0"]).1 = h → h.length > 0 →
        (InitInternalRegistry lib kubectl helm internalRegistry (some c) fuel w).registryConfig =
          some { c with URL := some h, Insecure := some false }) ∧
      ((¬ ∃ v, internalRegistry.Release.Values = some v ∧
          (v.QueryBool ["ingress", "enabled"]).1 = true ∧
          ((v.QueryString ["ingress", "hosts", "0"]).1).length > 0) →
        (InitInternalRegistry lib kubectl helm internalRegistry (some c) fuel w).registryConfig =
          some { c with URL := some (ip ++ ":5000"), Insecure := some true }) := by
  have hcfg : (InitInternalRegistry lib kubectl helm internalRegistry (some c) fuel w).registryConfig =
      some (setEndpoint c serviceHostname (ingressHostnameOf internalRegistry.Release.Values)) := by
    rw [InitInternalRegistry_of_probe_error lib kubectl helm internalRegistry (some c) fuel w
      name ns e hname hns hprobe]
    simp [provisionRegistry, hprep, resolveEndpoint, hservice]
  obtain ⟨s, ip, hs, hip, hhost⟩ := waitForServiceLoop_ok kubectl ns (name ++ "-docker-registry")
    (3 * Second) fuel (60 * Second) w2 serviceHostname (by rw [hservice])
  refine ⟨ip, hip, ⟨s, hs⟩, hhost, ?_, ?_⟩
  · intro v h hv henabled hq hlen
    rw [hcfg, hv, ingressHostnameOf_enabled v h henabled hq hlen]
    have : ¬ h.length = 0 := by omega
    simp [setEndpoint, this]
  · intro hother
    rw [hcfg, ingressHostnameOf_other _ hother, hhost]
    simp [setEndpoint]

/-- Two runs on the healthy test cluster, whose service has the address
`10.0.0.7`: with ingress enabled for `registry.example.com`, and without
value overrides. -/
theorem InitInternalRegistry_endpoint_witness :
    (InitInternalRegistry fixtureHtpasswd (fixtureClientset healthy) fixtureHelm ingressRelease
      (some aliceConfig) 24 fresh).registryConfig =
      some { aliceConfig with URL := some "registry.example.com", Insecure := some false } ∧
    (InitInternalRegistry fixtureHtpasswd (fixtureClientset healthy) fixtureHelm plainRelease
      (some aliceConfig) 24 fresh).registryConfig =
      some { aliceConfig with URL := some "10.0.0.7:5000", Insecure := some true } := by
  constructor
  · obtain ⟨ip, _, _, _, hingress, _⟩ :=
      InitInternalRegistry_endpoint fixtureHtpasswd (fixtureClientset healthy) fixtureHelm
        ingressRelease aliceConfig 24 fresh _ _ "reg" "devspace" "10.0.0.7:5000"
        "deployments.extensions not found" rfl rfl rfl rfl rfl
    exact hingress ingressValues "registry.example.com" rfl rfl rfl (by decide)
  · obtain ⟨ip, _, _, hhost, _, hother⟩ :=
      InitInternalRegistry_endpoint fixtureHtpasswd (fixtureClientset healthy) fixtureHelm
        plainRelease aliceConfig 24 fresh _ _ "reg" "devspace" "10.0.0.7:5000"
        "deployments.extensions not found" rfl rfl rfl rfl rfl
    rw [hhost]
    exact hother (by rintro ⟨v, hv, _⟩; exact absurd hv (by simp [plainRelease]))

end Registry
